import Mathlib

/-!
Verification of the SecureSearch repository: an Express server exposing
a suggestion endpoint (`/api/search`, SQLite `LIKE` query over a seeded
`items` table, `LIMIT 5`) and a Google-Sheets proxy endpoint
(`/api/sheets/:spreadsheetId/:range`), plus a React client with a
debounced suggestion fetch (`App.tsx`).

The server and client logic is shallowly embedded below: SQL `LIKE`
matching is modelled by an executable pattern matcher with SQLite's
ASCII case folding, the HTTP handlers become total Lean functions from
request data (and a store / upstream oracle) to response records, and
the client effect becomes an explicit event-step machine with a
cancellable debounce timer.
-/

/-- ASCII lower-casing, the case folding SQLite's default `LIKE` uses. -/
def lowerAscii (c : Char) : Char :=
  if 65 ≤ c.toNat ∧ c.toNat ≤ 90 then Char.ofNat (c.toNat + 32) else c

/-- SQLite `LIKE` pattern matching over explicit character lists:
`%` matches any sequence, `_` matches one character, other characters
match ASCII case-insensitively. -/
def likeMatch : List Char → List Char → Bool
  | [], s => s.isEmpty
  | p :: ps, s =>
    if p = '%' then (List.tails s).any (fun v => likeMatch ps v)
    else if p = '_' then
      match s with
      | [] => false
      | _ :: cs => likeMatch ps cs
    else
      match s with
      | [] => false
      | c :: cs => (lowerAscii p == lowerAscii c) && likeMatch ps cs

/-- Case-insensitive matching of `t` against the front of `v`. -/
def prefMatch : List Char → List Char → Bool
  | [], _ => true
  | _ :: _, [] => false
  | a :: as, b :: bs => (lowerAscii a == lowerAscii b) && prefMatch as bs

/-- Reference ASCII-case-insensitive substring test: `t` occurs inside `s`. -/
def subMatch (t s : List Char) : Bool :=
  (List.tails s).any (fun v => prefMatch t v)

/-- True when the string contains neither of the `LIKE` wildcards `%`, `_`. -/
def wildcardFreeL : List Char → Bool
  | [] => true
  | c :: cs => !(c = '%' : Bool) && !(c = '_' : Bool) && wildcardFreeL cs

/-- String-level wrapper for `wildcardFreeL`. -/
def wildcardFree (s : String) : Bool := wildcardFreeL s.data

/-- A row of the `items` table (`id, name, description, category`). -/
structure Item where
  id : Nat
  name : String
  description : String
  category : String
deriving DecidableEq, Repr

/-- The seed rows inserted at startup when the table is empty
(`seedData` in the server; ids assigned by `AUTOINCREMENT` from 1). -/
def seededItems : List Item :=
  [⟨1, "Apple iPhone 15", "Latest smartphone from Apple", "Electronics"⟩,
   ⟨2, "Samsung Galaxy S23", "High-end Android smartphone", "Electronics"⟩,
   ⟨3, "Sony WH-1000XM5", "Noise-canceling headphones", "Audio"⟩,
   ⟨4, "MacBook Pro 14", "Powerful laptop for professionals", "Computing"⟩,
   ⟨5, "Dell XPS 13", "Compact and powerful ultrabook", "Computing"⟩,
   ⟨6, "Nintendo Switch", "Hybrid gaming console", "Gaming"⟩,
   ⟨7, "PlayStation 5", "Next-gen gaming console", "Gaming"⟩,
   ⟨8, "Logitech MX Master 3S", "Ergonomic productivity mouse", "Accessories"⟩,
   ⟨9, "Keychron K2", "Mechanical wireless keyboard", "Accessories"⟩,
   ⟨10, "Kindle Paperwhite", "E-reader for book lovers", "Electronics"⟩]

/-- The bound `LIKE` parameter built by the handler: the literal string
`"%" + query + "%"` (the raw query is passed as a parameter, never
concatenated into the SQL text). -/
def likePattern (q : String) : List Char :=
  '%' :: (q.data ++ ['%'])

/-- The `WHERE` clause of the prepared statement:
`name LIKE ? OR description LIKE ?` with both parameters `%query%`. -/
def rowMatches (q : String) (it : Item) : Bool :=
  likeMatch (likePattern q) it.name.data || likeMatch (likePattern q) it.description.data

/-- `SELECT * FROM items WHERE name LIKE ? OR description LIKE ? LIMIT 5`
executed against the rows `db` in table order. -/
def searchQuery (db : List Item) (q : String) : List Item :=
  (db.filter (rowMatches q)).take 5

/-- Modelled from the spec: the reference literal-substring match — a row
is returned when the raw text occurs literally (ASCII case-insensitively)
in `name` or in `description`, capped at 5 rows. Used to compare the
`LIKE`-based `searchQuery` against the spec's injection-safety wording. -/
def literalSearch (db : List Item) (q : String) : List Item :=
  (db.filter (fun it => subMatch q.data it.name.data || subMatch q.data it.description.data)).take 5

/-- Outcome of one row-store access: rows, or a thrown storage fault. -/
inductive StoreResult where
  | ok (rows : List Item)
  | fault (detail : String)
deriving DecidableEq, Repr

/-- Response body of the search endpoint: a JSON row array or the JSON
object `{error: ...}`. -/
inductive SearchBody where
  | items (rows : List Item)
  | errObj (error : String)
deriving DecidableEq, Repr

/-- Observable outcome of one `/api/search` request: HTTP status, body,
whether the prepared statement was executed, and server-side log lines. -/
structure SearchOutcome where
  status : Nat
  body : SearchBody
  storeQueried : Bool
  log : List String
deriving DecidableEq, Repr

/-- The `/api/search` handler: `q` is the optional query parameter.
`if (!query || query.length < 2) return res.json([])`, else the prepared
statement runs; a thrown fault is caught, logged, and reported as a
generic 500. The store is abstracted as a function so a stub can record
whether it was called. -/
def apiSearch (store : String → StoreResult) (q : Option String) : SearchOutcome :=
  match q with
  | none => ⟨200, SearchBody.items [], false, []⟩
  | some query =>
    if query.length < 2 then ⟨200, SearchBody.items [], false, []⟩
    else
      match store query with
      | StoreResult.ok rows => ⟨200, SearchBody.items rows, true, []⟩
      | StoreResult.fault detail =>
          ⟨500, SearchBody.errObj "Internal server error", true, [detail]⟩

/-- The real store of the server: the prepared `LIKE` query over `db`. -/
def dbStore (db : List Item) : String → StoreResult :=
  fun q => StoreResult.ok (searchQuery db q)

/-- Whitespace trimming on both ends, the semantics of JS `String.trim`
used by the client before the length check. -/
def trimChars (s : List Char) : List Char :=
  ((s.dropWhile Char.isWhitespace).reverse.dropWhile Char.isWhitespace).reverse

/-- The environment configuration read by the sheets proxy:
`GOOGLE_SERVICE_ACCOUNT_EMAIL` and `GOOGLE_PRIVATE_KEY`, each possibly
unset. -/
structure SheetsEnv where
  email : Option String
  privateKey : Option String

/-- `privateKey?.replace(/\\n/g, "\n")`: every two-character sequence
backslash-`n` becomes a real newline, scanning left to right. -/
def normalizeKey : List Char → List Char
  | [] => []
  | [c] => [c]
  | c :: d :: cs =>
    if c = '\\' && d = 'n' then '\n' :: normalizeKey cs
    else c :: normalizeKey (d :: cs)

/-- JS truthiness test for an optional env string: `undefined` and the
empty string are both falsy (`!clientEmail || !privateKey`). -/
def envMissing : Option String → Bool
  | none => true
  | some s => s.isEmpty

/-- Result of the one outbound call to the Google Sheets read API:
the pass-through payload, or a failure carrying `error.code` (absent for
non-HTTP faults) and `error.message`. -/
inductive UpstreamResult where
  | success (payload : String)
  | failure (code : Option Nat) (message : String)

/-- Response body of the sheets proxy: pass-through payload, the
configuration error object `{error, details}`, or the upstream error
object `{error, message}`. -/
inductive SheetsBody where
  | payload (data : String)
  | configError (error details : String)
  | upstreamError (error message : String)
deriving DecidableEq, Repr

/-- Observable outcome of one `/api/sheets/:spreadsheetId/:range`
request: status, body, and whether the handler reached the
assertion-construction / network-call stage (the `try` block). -/
structure SheetsOutcome where
  status : Nat
  body : SheetsBody
  networkCalled : Bool
deriving DecidableEq, Repr

/-- `error.code || 500`: a missing or zero (falsy) code maps to 500. -/
def upstreamStatus : Option Nat → Nat
  | none => 500
  | some n => if n = 0 then 500 else n

/-- The `/api/sheets` handler. The upstream call (JWT construction plus
`sheets.spreadsheets.values.get`) is abstracted as a total function of
the credentials and path parameters; the `catch` branch maps a failure
into the uniform error shape, so no exception escapes the handler. -/
def apiSheets (upstream : String → String → String → String → UpstreamResult)
    (env : SheetsEnv) (spreadsheetId range : String) : SheetsOutcome :=
  if envMissing env.email || envMissing env.privateKey then
    ⟨500, SheetsBody.configError
        "Google Service Account credentials not configured on server."
        "Please ensure GOOGLE_SERVICE_ACCOUNT_EMAIL and GOOGLE_PRIVATE_KEY are set.",
      false⟩
  else
    match upstream ((env.email).getD "") (⟨normalizeKey ((env.privateKey).getD "").data⟩)
        spreadsheetId range with
    | UpstreamResult.success d => ⟨200, SheetsBody.payload d, true⟩
    | UpstreamResult.failure c m =>
        ⟨upstreamStatus c, SheetsBody.upstreamError "Failed to fetch data from Google Sheets." m, true⟩

/-- React state of `App.tsx` relevant to the search interaction, plus
the pending debounce timer: `some (remaining, q)` is a scheduled
`fetchSuggestions` closing over query value `q`. -/
structure ClientState where
  query : String
  suggestions : List Item
  isLoading : Bool
  showSuggestions : Bool
  selectedItem : Option Item
  pendingTimer : Option (Nat × String)
deriving DecidableEq, Repr

/-- Events driving the client model: a change of the input text, the
passage of time, clicking a suggestion, and clicking outside the search
region. -/
inductive ClientEvent where
  | input (s : String)
  | elapse (d : Nat)
  | select (it : Item)
  | clickOutside

/-- The `[query]` effect: whenever `query` changes (React bails out on
an identical value), the cleanup cancels the previous timer and a new
300ms timer is scheduled, closing over the new query. -/
def inputChange (st : ClientState) (s : String) : ClientState :=
  if s = st.query then st
  else { st with query := s, pendingTimer := some (300, s) }

/-- `fetchSuggestions` firing with captured query `q`: below 2 trimmed
characters it clears suggestions and returns without a call; otherwise
it performs the fetch (modelled as completing synchronously at fire
time via the `server` oracle, `none` standing for a non-ok or failed
response). Returns the new state and the queries sent over the
network. -/
def fireFetch (server : String → Option (List Item)) (st : ClientState) (q : String) :
    ClientState × List String :=
  if (trimChars q.data).length < 2 then
    ({ st with suggestions := [], pendingTimer := none }, [])
  else
    match server q with
    | some data =>
        ({ st with isLoading := false, suggestions := data, showSuggestions := true,
                   pendingTimer := none }, [q])
    | none => ({ st with isLoading := false, pendingTimer := none }, [q])

/-- Passage of `d` time-units: a pending timer either counts down or
fires. After a fire the timer is gone, so the remainder of `d` passes
without effect. -/
def elapseTime (server : String → Option (List Item)) (st : ClientState) (d : Nat) :
    ClientState × List String :=
  match st.pendingTimer with
  | none => (st, [])
  | some (rem, q) =>
      if d < rem then ({ st with pendingTimer := some (rem - d, q) }, [])
      else fireFetch server st q

/-- `handleSelectSuggestion`: records the item, replaces the input text
with its name and hides the dropdown; because `query` changed, the
`[query]` effect then reschedules the debounce timer (unless the typed
query already equals the item's name, in which case React bails out). -/
def handleSelectSuggestion (st : ClientState) (it : Item) : ClientState :=
  if it.name = st.query then
    { st with selectedItem := some it, showSuggestions := false }
  else
    { st with selectedItem := some it, query := it.name, showSuggestions := false,
              pendingTimer := some (300, it.name) }

/-- One client step; returns the new state and the network calls made
during the event. -/
def stepClient (server : String → Option (List Item)) (st : ClientState) :
    ClientEvent → ClientState × List String
  | ClientEvent.input s => (inputChange st s, [])
  | ClientEvent.elapse d => elapseTime server st d
  | ClientEvent.select it => (handleSelectSuggestion st it, [])
  | ClientEvent.clickOutside => ({ st with showSuggestions := false }, [])

/-- Runs a sequence of client events, accumulating network calls. -/
def runClient (server : String → Option (List Item)) (st : ClientState) :
    List ClientEvent → ClientState × List String
  | [] => (st, [])
  | e :: es =>
    let r1 := stepClient server st e
    let r2 := runClient server r1.1 es
    (r2.1, r1.2 ++ r2.2)

/-- The mounted client: empty query, nothing shown; the effect has run
once on mount, scheduling a timer over the initial empty query. -/
def initClient : ClientState :=
  ⟨"", [], false, false, none, some (300, "")⟩

/-- The deployed server as seen by the client: `/api/search` backed by
the seeded table, always reachable. -/
def liveServer : String → Option (List Item) :=
  fun q => some (searchQuery seededItems q)

/-- UTF-8 encoding of one Unicode code point as byte values. -/
def utf8EncodeNat (n : Nat) : List Nat :=
  if n < 128 then [n]
  else if n < 2048 then [192 + n / 64, 128 + n % 64]
  else if n < 65536 then [224 + n / 4096, 128 + n / 64 % 64, 128 + n % 64]
  else [240 + n / 262144, 128 + n / 4096 % 64, 128 + n / 64 % 64, 128 + n % 64]

/-- UTF-8 byte encoding of a character list. -/
def utf8EncodeL : List Char → List Nat
  | [] => []
  | c :: cs => utf8EncodeNat c.toNat ++ utf8EncodeL cs

/-- The characters `encodeURIComponent` leaves unescaped (ECMA-262
`uriUnescaped`): ASCII letters, digits, and `- _ . ! ~ * ' ( )`. -/
def uriUnreserved (c : Char) : Bool :=
  c.isAlpha || c.isDigit ||
    (c = '-' || c = '_' || c = '.' || c = '!' || c = '~' ||
     c = '*' || c = Char.ofNat 39 || c = '(' || c = ')')

/-- Uppercase hexadecimal digit for a value below 16. -/
def hexDigitChar (n : Nat) : Char :=
  if n < 10 then Char.ofNat (48 + n) else Char.ofNat (55 + n)

/-- One percent-escape `%XY` for a byte value. -/
def encByte (b : Nat) : List Char :=
  ['%', hexDigitChar (b / 16), hexDigitChar (b % 16)]

/-- Percent-escapes for a list of byte values. -/
def encBytes : List Nat → List Char
  | [] => []
  | b :: bs => encByte b ++ encBytes bs

/-- `encodeURIComponent` on one character: unreserved characters pass
through, everything else becomes the percent-escapes of its UTF-8
bytes. -/
def encChar (c : Char) : List Char :=
  if uriUnreserved c then [c] else encBytes (utf8EncodeNat c.toNat)

/-- `encodeURIComponent` over a character list. -/
def encodeURIComponentL : List Char → List Char
  | [] => []
  | c :: cs => encChar c ++ encodeURIComponentL cs

/-- `encodeURIComponent` on strings. -/
def encodeURIComponentS (s : String) : String :=
  ⟨encodeURIComponentL s.data⟩

/-- The request URL the client builds:
``fetch(`/api/search?q=${encodeURIComponent(query)}`)``. -/
def buildSearchUrl (q : String) : String :=
  "/api/search?q=" ++ encodeURIComponentS q

/-- Numeric value of a hexadecimal digit character (either case);
other characters map to 0 and never arise from well-formed escapes. -/
def hexVal (c : Char) : Nat :=
  if 48 ≤ c.toNat ∧ c.toNat ≤ 57 then c.toNat - 48
  else if 65 ≤ c.toNat ∧ c.toNat ≤ 70 then c.toNat - 55
  else if 97 ≤ c.toNat ∧ c.toNat ≤ 102 then c.toNat - 87
  else 0

/-- Server-side percent-decoding of a query-string value to bytes, as
the query parser performs it: `%XY` yields a byte, `+` yields a space,
any other character contributes its own UTF-8 bytes. -/
def percentDecode : List Char → List Nat
  | [] => []
  | [c] => if c = '+' then [32] else utf8EncodeNat c.toNat
  | [c, d] =>
    if c = '+' then 32 :: percentDecode [d]
    else utf8EncodeNat c.toNat ++ percentDecode [d]
  | c :: d :: e :: cs =>
    if c = '%' then (hexVal d * 16 + hexVal e) :: percentDecode cs
    else if c = '+' then 32 :: percentDecode (d :: e :: cs)
    else utf8EncodeNat c.toNat ++ percentDecode (d :: e :: cs)

/-- Streaming UTF-8 decoder: `acc` is the partially assembled code
point and `need` the number of continuation bytes still expected
(0 means the next byte is a lead byte). A truncated final sequence,
which never arises from `encodeURIComponent` output, is dropped. -/
def utf8DecodeAux : Nat → Nat → List Nat → List Char
  | _, _, [] => []
  | acc, need, b :: bs =>
    if need = 0 then
      if b < 128 then Char.ofNat b :: utf8DecodeAux 0 0 bs
      else if b < 224 then utf8DecodeAux (b - 192) 1 bs
      else if b < 240 then utf8DecodeAux (b - 224) 2 bs
      else utf8DecodeAux (b - 240) 3 bs
    else if need = 1 then Char.ofNat (acc * 64 + (b - 128)) :: utf8DecodeAux 0 0 bs
    else utf8DecodeAux (acc * 64 + (b - 128)) (need - 1) bs

/-- UTF-8 decoding of a byte list back to characters. -/
def utf8Decode (bs : List Nat) : List Char :=
  utf8DecodeAux 0 0 bs

/-- Characters of a query-string value up to the next `&` pair
separator. -/
def takeUntilAmp : List Char → List Char
  | [] => []
  | c :: cs => if c = '&' then [] else c :: takeUntilAmp cs

/-- Everything after the first `?` of a URL: the query string. -/
def afterQuestionMark : List Char → List Char
  | [] => []
  | c :: cs => if c = '?' then cs else afterQuestionMark cs

/-- The value of the `q` parameter as the server's query parser
delivers it to the handler: the decoded text after `q=` up to the next
`&`. -/
def serverQueryValue (qs : List Char) : Option String :=
  match qs with
  | 'q' :: '=' :: rest => some ⟨utf8Decode (percentDecode (takeUntilAmp rest))⟩
  | _ => none


/-! ## Lemmas about `LIKE` matching -/

theorem tails_any_isEmpty (s : List Char) : (List.tails s).any (fun v => v.isEmpty) = true := by
  induction s with
  | nil => rfl
  | cons c cs ih => simp only [List.tails_cons, List.any_cons, ih, Bool.or_true]

theorem any_congruent {α : Type} (l : List α) (f g : α → Bool) (h : ∀ x ∈ l, f x = g x) :
    l.any f = l.any g := by
  induction l with
  | nil => rfl
  | cons a t ih =>
    simp only [List.any_cons]
    rw [h a (List.mem_cons_self a t), ih (fun x hx => h x (List.mem_cons_of_mem a hx))]

theorem wildcardFreeL_cons {c : Char} {cs : List Char} (h : wildcardFreeL (c :: cs) = true) :
    ¬ c = '%' ∧ ¬ c = '_' ∧ wildcardFreeL cs = true := by
  simp only [wildcardFreeL, Bool.and_eq_true, Bool.not_eq_true', decide_eq_false_iff_not] at h
  exact ⟨h.1.1, h.1.2, h.2⟩

theorem likeMatch_append_pct (t : List Char) (h : wildcardFreeL t = true) :
    ∀ s : List Char, likeMatch (t ++ ['%']) s = prefMatch t s := by
  induction t with
  | nil =>
    intro s
    simp only [List.nil_append, likeMatch, prefMatch, if_pos rfl]
    exact tails_any_isEmpty s
  | cons c cs ih =>
    obtain ⟨hc, hu, hcs⟩ := wildcardFreeL_cons h
    intro s
    cases s with
    | nil =>
      simp only [List.cons_append, likeMatch, prefMatch, if_neg hc, if_neg hu]
    | cons d ds =>
      simp only [List.cons_append, likeMatch, prefMatch, if_neg hc, if_neg hu]
      rw [show (cs.append ['%']) = cs ++ ['%'] from rfl, ih hcs ds]

theorem likeMatch_wrap (t : List Char) (h : wildcardFreeL t = true) (s : List Char) :
    likeMatch ('%' :: (t ++ ['%'])) s = subMatch t s := by
  simp only [likeMatch, if_pos rfl, subMatch]
  exact any_congruent _ _ _ (fun v _ => likeMatch_append_pct t h v)

theorem likeMatch_pct_cons (ps : List Char) (d : Char) (vs : List Char)
    (h : likeMatch ('%' :: ps) vs = true) : likeMatch ('%' :: ps) (d :: vs) = true := by
  simp only [likeMatch, eq_self_iff_true, if_true] at h ⊢
  simp only [List.tails_cons, List.any_cons, h, Bool.or_true]

theorem likeMatch_pct_self (ps : List Char) (v : List Char)
    (h : likeMatch ps v = true) : likeMatch ('%' :: ps) v = true := by
  simp only [likeMatch, eq_self_iff_true, if_true]
  rw [List.any_eq_true]
  exact ⟨v, (List.mem_tails v v).mpr (List.suffix_refl v), h⟩

theorem prefMatch_likeMatch (t : List Char) :
    ∀ v : List Char, prefMatch t v = true → likeMatch (t ++ ['%']) v = true := by
  induction t with
  | nil =>
    intro v _
    simp only [List.nil_append, likeMatch, if_pos rfl]
    exact tails_any_isEmpty v
  | cons c cs ih =>
    intro v hp
    cases v with
    | nil => simp [prefMatch] at hp
    | cons d ds =>
      simp only [prefMatch, Bool.and_eq_true] at hp
      by_cases hc : c = '%'
      · subst hc
        simp only [List.cons_append]
        exact likeMatch_pct_cons _ d ds (likeMatch_pct_self _ ds (ih ds hp.2))
      · by_cases hu : c = '_'
        · subst hu
          simp only [List.cons_append, likeMatch, if_neg (by decide : ¬ ('_' : Char) = '%'),
            if_pos rfl]
          exact ih ds hp.2
        · simp only [List.cons_append, likeMatch, if_neg hc, if_neg hu, Bool.and_eq_true]
          exact ⟨hp.1, ih ds hp.2⟩

theorem subMatch_likeMatch (t s : List Char) (h : subMatch t s = true) :
    likeMatch ('%' :: (t ++ ['%'])) s = true := by
  simp only [subMatch, List.any_eq_true] at h
  obtain ⟨v, hv, hp⟩ := h
  simp only [likeMatch, eq_self_iff_true, if_true]
  rw [List.any_eq_true]
  exact ⟨v, hv, prefMatch_likeMatch t v hp⟩

/-! ## Claims about the suggestion endpoint -/

/-- C2 (amended): for a request whose `q` parameter is absent or has raw
(untrimmed) length below 2, the endpoint responds 200 with the empty
array and never executes the search statement. The server checks the
raw length, not the trimmed length. -/
theorem search_short_circuit (store : String → StoreResult) (q : Option String)
    (h : ∀ s, q = some s → s.length < 2) :
    apiSearch store q = ⟨200, SearchBody.items [], false, []⟩ := by
  cases q with
  | none => rfl
  | some s => simp only [apiSearch, if_pos (h s rfl)]

/-- Witness for `search_short_circuit` at `q = "a"`. -/
theorem search_short_circuit_witness :
    apiSearch (dbStore seededItems) (some "a") = ⟨200, SearchBody.items [], false, []⟩ :=
  search_short_circuit (dbStore seededItems) (some "a")
    (fun s hs => by cases hs; decide)

/-- C2 counterexample: `" a"` has trimmed length 1 (< 2), yet the
endpoint does execute the search statement, because the code tests the
raw length `2`. -/
theorem search_trim_cex :
    (trimChars " a".data).length < 2 ∧
    (apiSearch (dbStore seededItems) (some " a")).storeQueried = true :=
  ⟨by decide, rfl⟩

/-- C3 counterexample: for the input `"Apple%15"` — absent literally
from every row — the `LIKE` query returns the iPhone row, so the result
differs from the reference literal-substring match: `%` keeps its
wildcard meaning. -/
theorem search_injection_cex :
    searchQuery seededItems "Apple%15" ≠ literalSearch seededItems "Apple%15" := by
  decide

/-- C3 (amended): the input is bound as a statement parameter, so quote
and comment characters are treated literally and for every input free
of the `LIKE` wildcards `%` and `_` the result coincides with the
reference literal-substring match; inputs containing `%` or `_` keep
`LIKE` wildcard semantics. -/
theorem search_literal_of_wildcardFree (db : List Item) (q : String)
    (h : wildcardFree q = true) : searchQuery db q = literalSearch db q := by
  unfold searchQuery literalSearch
  congr 1
  apply List.filter_congr
  intro it _
  unfold rowMatches likePattern
  rw [likeMatch_wrap q.data h, likeMatch_wrap q.data h]

/-- Witness for `search_literal_of_wildcardFree` on an input full of
quote syntax. -/
theorem search_literal_of_wildcardFree_witness :
    searchQuery seededItems "console'; DROP TABLE items;--" =
      literalSearch seededItems "console'; DROP TABLE items;--" :=
  search_literal_of_wildcardFree seededItems "console'; DROP TABLE items;--" (by decide)

/-- C6 counterexample: `"on"` (length 2) occurs case-insensitively in
`"PlayStation 5"`, but eight seeded rows match and the `LIMIT 5` cap
drops that row from the results; and `"k__dle"` occurs literally in no
field of any row, yet the search returns a row, because `_` acts as a
wildcard. -/
theorem search_seeded_cex :
    (2 ≤ "on".length ∧ subMatch "on".data "PlayStation 5".data = true ∧
      (⟨7, "PlayStation 5", "Next-gen gaming console", "Gaming"⟩ : Item) ∈ seededItems ∧
      (⟨7, "PlayStation 5", "Next-gen gaming console", "Gaming"⟩ : Item) ∉
        searchQuery seededItems "on") ∧
    ((∀ r ∈ seededItems, subMatch "k__dle".data r.name.data = false ∧
        subMatch "k__dle".data r.description.data = false) ∧
      searchQuery seededItems "k__dle" ≠ []) := by
  decide

/-- C6 (amended): a seeded row containing the text (length ≥ 2) as an
ASCII-case-insensitive substring of its name or description is among
the results whenever at most 5 seeded rows match the bound pattern (the
`LIMIT 5` cap can otherwise drop it); and a wildcard-free text occurring
in no field of any row yields the empty result. -/
theorem search_seeded_substring :
    (∀ (t : String) (r : Item), r ∈ seededItems → 2 ≤ t.length →
      (subMatch t.data r.name.data = true ∨ subMatch t.data r.description.data = true) →
      (seededItems.filter (rowMatches t)).length ≤ 5 →
      r ∈ searchQuery seededItems t) ∧
    (∀ t : String, wildcardFree t = true →
      (∀ r ∈ seededItems, subMatch t.data r.name.data = false ∧
        subMatch t.data r.description.data = false) →
      searchQuery seededItems t = []) := by
  constructor
  · intro t r hr _ hsub hcap
    have hm : rowMatches t r = true := by
      unfold rowMatches likePattern
      rw [Bool.or_eq_true]
      rcases hsub with h | h
      · exact Or.inl (subMatch_likeMatch _ _ h)
      · exact Or.inr (subMatch_likeMatch _ _ h)
    unfold searchQuery
    rw [List.take_of_length_le hcap]
    exact List.mem_filter.mpr ⟨hr, hm⟩
  · intro t hw hnone
    unfold searchQuery
    have hnil : seededItems.filter (rowMatches t) = [] := by
      rw [List.filter_eq_nil_iff]
      intro r hr
      unfold rowMatches likePattern
      rw [Bool.or_eq_true, likeMatch_wrap t.data hw, likeMatch_wrap t.data hw]
      rw [(hnone r hr).1, (hnone r hr).2]
      simp
    rw [hnil]
    rfl

/-- Witness for `search_seeded_substring`: the Kindle row is returned
for `"Kindle"` (a one-row match), and `"zzzz"` returns nothing. -/
theorem search_seeded_substring_witness :
    (⟨10, "Kindle Paperwhite", "E-reader for book lovers", "Electronics"⟩ : Item) ∈
        searchQuery seededItems "Kindle" ∧
      searchQuery seededItems "zzzz" = [] :=
  ⟨search_seeded_substring.1 "Kindle"
      ⟨10, "Kindle Paperwhite", "E-reader for book lovers", "Electronics"⟩
      (by decide) (by decide) (Or.inl (by decide)) (by decide),
    search_seeded_substring.2 "zzzz" (by decide) (by decide)⟩

/-- C7: the row sequence returned by the suggestion endpoint never has
more than 5 elements, whatever the store contents and query. -/
theorem search_result_cap (db : List Item) (q : Option String) (l : List Item)
    (h : (apiSearch (dbStore db) q).body = SearchBody.items l) : l.length ≤ 5 := by
  cases q with
  | none =>
    simp only [apiSearch, SearchBody.items.injEq] at h
    rw [← h]
    decide
  | some s =>
    by_cases hl : s.length < 2
    · simp only [apiSearch, if_pos hl, SearchBody.items.injEq] at h
      rw [← h]
      decide
    · simp only [apiSearch, if_neg hl, dbStore, SearchBody.items.injEq] at h
      rw [← h]
      exact List.length_take_le 5 _

/-- Witness for `search_result_cap` at the heavily-matching query
`"on"` (eight rows match, five are returned). -/
theorem search_result_cap_witness :
    (apiSearch (dbStore seededItems) (some "on")).body =
        SearchBody.items (searchQuery seededItems "on") ∧
      (searchQuery seededItems "on").length ≤ 5 :=
  ⟨rfl, search_result_cap seededItems (some "on") (searchQuery seededItems "on") rfl⟩

/-- C8: a storage fault thrown during the search is caught; the
response is a 500 with the fixed generic body, while the fault detail
goes only to the server-side log. -/
theorem search_fault_generic (store : String → StoreResult) (s detail : String)
    (h2 : ¬ s.length < 2) (hf : store s = StoreResult.fault detail) :
    apiSearch store (some s) =
      ⟨500, SearchBody.errObj "Internal server error", true, [detail]⟩ := by
  simp only [apiSearch, if_neg h2, hf]

/-- Witness for `search_fault_generic` with a stub store that always
throws. -/
theorem search_fault_generic_witness :
    apiSearch (fun _ => StoreResult.fault "SQLITE_IOERR: disk I/O error") (some "ab") =
      ⟨500, SearchBody.errObj "Internal server error", true, ["SQLITE_IOERR: disk I/O error"]⟩ :=
  search_fault_generic (fun _ => StoreResult.fault "SQLITE_IOERR: disk I/O error")
    "ab" "SQLITE_IOERR: disk I/O error" (by decide) rfl

/-! ## Claims about the sheets proxy endpoint -/

/-- C4: a missing principal identifier or private key yields a 500 with
the configuration-specific body and no assertion construction or
network call; with both configured (non-empty, per JS truthiness) the
handler reaches the network-call stage. -/
theorem sheets_config_gate (upstream : String → String → String → String → UpstreamResult)
    (env : SheetsEnv) (spreadsheetId range : String) :
    ((env.email = none ∨ env.privateKey = none) →
      apiSheets upstream env spreadsheetId range =
        ⟨500, SheetsBody.configError
            "Google Service Account credentials not configured on server."
            "Please ensure GOOGLE_SERVICE_ACCOUNT_EMAIL and GOOGLE_PRIVATE_KEY are set.",
          false⟩) ∧
    (∀ e k, env.email = some e → ¬ e = "" → env.privateKey = some k → ¬ k = "" →
      (apiSheets upstream env spreadsheetId range).networkCalled = true) := by
  constructor
  · intro hmiss
    have hcond : (envMissing env.email || envMissing env.privateKey) = true := by
      rcases hmiss with h | h <;> rw [h] <;> simp [envMissing]
    unfold apiSheets
    rw [if_pos hcond]
  · intro e k he hne hk hnk
    have hcond : (envMissing env.email || envMissing env.privateKey) = false := by
      rw [he, hk]
      simp only [envMissing, Bool.or_eq_false_iff]
      constructor
      · exact Bool.eq_false_iff.mpr (fun hh => hne ((String.isEmpty_iff e).mp hh))
      · exact Bool.eq_false_iff.mpr (fun hh => hnk ((String.isEmpty_iff k).mp hh))
    unfold apiSheets
    rw [if_neg (by simp [hcond])]
    cases upstream ((env.email).getD "") (⟨normalizeKey ((env.privateKey).getD "").data⟩)
        spreadsheetId range <;> rfl

/-- Witness for `sheets_config_gate`: a missing email gives the
configuration 500 without a network call; a configured pair reaches the
network stage. -/
theorem sheets_config_gate_witness :
    apiSheets (fun _ _ _ _ => UpstreamResult.success "{}") ⟨none, some "KEY"⟩ "sheet1" "A1:B2" =
        ⟨500, SheetsBody.configError
            "Google Service Account credentials not configured on server."
            "Please ensure GOOGLE_SERVICE_ACCOUNT_EMAIL and GOOGLE_PRIVATE_KEY are set.",
          false⟩ ∧
      (apiSheets (fun _ _ _ _ => UpstreamResult.success "{}") ⟨some "svc@example.com", some "KEY"⟩
          "sheet1" "A1:B2").networkCalled = true :=
  ⟨(sheets_config_gate (fun _ _ _ _ => UpstreamResult.success "{}") ⟨none, some "KEY"⟩
        "sheet1" "A1:B2").1 (Or.inl rfl),
    (sheets_config_gate (fun _ _ _ _ => UpstreamResult.success "{}")
        ⟨some "svc@example.com", some "KEY"⟩ "sheet1" "A1:B2").2
      "svc@example.com" "KEY" rfl (by decide) rfl (by decide)⟩

/-- C5: when the upstream call fails, the proxy answers with the
upstream status (500 when none is provided) and the uniform error body
carrying the upstream message; the handler is a total function, so no
exception reaches the transport layer. -/
theorem sheets_upstream_failure
    (upstream : String → String → String → String → UpstreamResult)
    (env : SheetsEnv) (e k spreadsheetId range m : String) (c : Option Nat)
    (he : env.email = some e) (hne : ¬ e = "") (hk : env.privateKey = some k) (hnk : ¬ k = "")
    (hf : upstream e ⟨normalizeKey k.data⟩ spreadsheetId range = UpstreamResult.failure c m) :
    (apiSheets upstream env spreadsheetId range).body =
        SheetsBody.upstreamError "Failed to fetch data from Google Sheets." m ∧
      (apiSheets upstream env spreadsheetId range).networkCalled = true ∧
      (c = none → (apiSheets upstream env spreadsheetId range).status = 500) ∧
      (∀ n, c = some n → ¬ n = 0 → (apiSheets upstream env spreadsheetId range).status = n) := by
  have hcond : (envMissing env.email || envMissing env.privateKey) = false := by
    rw [he, hk]
    simp only [envMissing, Bool.or_eq_false_iff]
    constructor
    · exact Bool.eq_false_iff.mpr (fun hh => hne ((String.isEmpty_iff e).mp hh))
    · exact Bool.eq_false_iff.mpr (fun hh => hnk ((String.isEmpty_iff k).mp hh))
  have hred : apiSheets upstream env spreadsheetId range =
      ⟨upstreamStatus c,
        SheetsBody.upstreamError "Failed to fetch data from Google Sheets." m, true⟩ := by
    unfold apiSheets
    rw [if_neg (by simp [hcond]), he, hk]
    simp only [Option.getD_some]
    rw [hf]
  refine ⟨by rw [hred], by rw [hred], ?_, ?_⟩
  · intro hc
    rw [hred]
    subst hc
    rfl
  · intro n hc hn
    rw [hred]
    subst hc
    simp [upstreamStatus, if_neg hn]

/-- Witness for `sheets_upstream_failure`: upstream fails with 404
`"Range not found"`, the proxy answers 404 with that message in the
uniform body. -/
theorem sheets_upstream_failure_witness :
    (apiSheets (fun _ _ _ _ => UpstreamResult.failure (some 404) "Range not found")
          ⟨some "svc@example.com", some "KEY"⟩ "sheet1" "A1:B2").status = 404 ∧
      (apiSheets (fun _ _ _ _ => UpstreamResult.failure (some 404) "Range not found")
          ⟨some "svc@example.com", some "KEY"⟩ "sheet1" "A1:B2").body =
        SheetsBody.upstreamError "Failed to fetch data from Google Sheets." "Range not found" :=
  ⟨(sheets_upstream_failure (fun _ _ _ _ => UpstreamResult.failure (some 404) "Range not found")
        ⟨some "svc@example.com", some "KEY"⟩ "svc@example.com" "KEY" "sheet1" "A1:B2"
        "Range not found" (some 404) rfl (by decide) rfl (by decide) rfl).2.2.2 404 rfl
      (by decide),
    (sheets_upstream_failure (fun _ _ _ _ => UpstreamResult.failure (some 404) "Range not found")
        ⟨some "svc@example.com", some "KEY"⟩ "svc@example.com" "KEY" "sheet1" "A1:B2"
        "Range not found" (some 404) rfl (by decide) rfl (by decide) rfl).1⟩

/-! ## Claims about the client debouncer -/

/-- Unfolding equation for one step of `runClient`. -/
theorem runClient_cons (server : String → Option (List Item)) (st : ClientState)
    (e : ClientEvent) (es : List ClientEvent) :
    runClient server st (e :: es) =
      ((runClient server (stepClient server st e).1 es).1,
        (stepClient server st e).2 ++ (runClient server (stepClient server st e).1 es).2) := rfl

/-- C9: a burst of three input changes, each arriving within the
300-unit quiet period of the previous one, produces exactly one network
call, carrying the final input value; every earlier scheduled fetch is
cancelled by the next change. -/
theorem debounce_burst_single_call
    (server : String → Option (List Item)) (s1 s2 s3 : String) (d1 d2 d3 : Nat)
    (h1 : ¬ s1 = "") (h2 : ¬ s2 = s1) (h3 : ¬ s3 = s2)
    (hd1 : d1 < 300) (hd2 : d2 < 300) (hd3 : 300 ≤ d3)
    (hlen : ¬ (trimChars s3.data).length < 2) :
    (runClient server initClient
        [ClientEvent.input s1, ClientEvent.elapse d1, ClientEvent.input s2,
         ClientEvent.elapse d2, ClientEvent.input s3, ClientEvent.elapse d3]).2 = [s3] := by
  have st1 : stepClient server initClient (ClientEvent.input s1) =
      (⟨s1, [], false, false, none, some (300, s1)⟩, []) := by
    simp only [stepClient, inputChange, initClient]
    rw [if_neg h1]
  have st2 : stepClient server ⟨s1, [], false, false, none, some (300, s1)⟩
      (ClientEvent.elapse d1) = (⟨s1, [], false, false, none, some (300 - d1, s1)⟩, []) := by
    simp only [stepClient, elapseTime]
    rw [if_pos hd1]
  have st3 : stepClient server ⟨s1, [], false, false, none, some (300 - d1, s1)⟩
      (ClientEvent.input s2) = (⟨s2, [], false, false, none, some (300, s2)⟩, []) := by
    simp only [stepClient, inputChange]
    rw [if_neg h2]
  have st4 : stepClient server ⟨s2, [], false, false, none, some (300, s2)⟩
      (ClientEvent.elapse d2) = (⟨s2, [], false, false, none, some (300 - d2, s2)⟩, []) := by
    simp only [stepClient, elapseTime]
    rw [if_pos hd2]
  have st5 : stepClient server ⟨s2, [], false, false, none, some (300 - d2, s2)⟩
      (ClientEvent.input s3) = (⟨s3, [], false, false, none, some (300, s3)⟩, []) := by
    simp only [stepClient, inputChange]
    rw [if_neg h3]
  have st6 : (stepClient server ⟨s3, [], false, false, none, some (300, s3)⟩
      (ClientEvent.elapse d3)).2 = [s3] := by
    simp only [stepClient, elapseTime]
    rw [if_neg (by omega : ¬ d3 < 300)]
    simp only [fireFetch]
    rw [if_neg hlen]
    cases server s3 <;> rfl
  rw [runClient_cons, st1]
  rw [runClient_cons, st2]
  rw [runClient_cons, st3]
  rw [runClient_cons, st4]
  rw [runClient_cons, st5]
  rw [runClient_cons]
  simp only [runClient, st6, List.append_nil, List.nil_append]

/-- Witness for `debounce_burst_single_call`: typing `"a"`, `"ap"`,
`"app"` 100 units apart against the live seeded server yields exactly
the single call for `"app"`. -/
theorem debounce_burst_single_call_witness :
    (runClient liveServer initClient
        [ClientEvent.input "a", ClientEvent.elapse 100, ClientEvent.input "ap",
         ClientEvent.elapse 100, ClientEvent.input "app", ClientEvent.elapse 300]).2 = ["app"] :=
  debounce_burst_single_call liveServer "a" "ap" "app" 100 100 300
    (by decide) (by decide) (by decide) (by decide) (by decide) (by decide) (by decide)

/-- C1 evaluation at the failing input: after typing `"app"`, letting
the fetch fire, and selecting the `"Apple iPhone 15"` suggestion, the
input text is replaced and the dropdown hidden — but the selection has
rescheduled the debounce effect, and 300 units later a further network
call for `"Apple iPhone 15"` fires and re-opens the dropdown, so
selection is not terminal. -/
theorem client_select_refetch :
    ((runClient liveServer initClient
          [ClientEvent.input "app", ClientEvent.elapse 300,
           ClientEvent.select ⟨1, "Apple iPhone 15", "Latest smartphone from Apple",
             "Electronics"⟩]).1.query = "Apple iPhone 15" ∧
      (runClient liveServer initClient
          [ClientEvent.input "app", ClientEvent.elapse 300,
           ClientEvent.select ⟨1, "Apple iPhone 15", "Latest smartphone from Apple",
             "Electronics"⟩]).1.showSuggestions = false ∧
      (runClient liveServer initClient
          [ClientEvent.input "app", ClientEvent.elapse 300,
           ClientEvent.select ⟨1, "Apple iPhone 15", "Latest smartphone from Apple",
             "Electronics"⟩]).2 = ["app"]) ∧
    (runClient liveServer initClient
          [ClientEvent.input "app", ClientEvent.elapse 300,
           ClientEvent.select ⟨1, "Apple iPhone 15", "Latest smartphone from Apple",
             "Electronics"⟩, ClientEvent.elapse 300]).2 = ["app", "Apple iPhone 15"] ∧
      (runClient liveServer initClient
          [ClientEvent.input "app", ClientEvent.elapse 300,
           ClientEvent.select ⟨1, "Apple iPhone 15", "Latest smartphone from Apple",
             "Electronics"⟩, ClientEvent.elapse 300]).1.showSuggestions = true := by
  exact ⟨⟨rfl, rfl, rfl⟩, rfl, rfl⟩

/-! ## Lemmas about URL encoding -/

/-- Code points are below `0x110000`. -/
theorem char_toNat_lt (c : Char) : c.toNat < 1114112 := by
  have hv := c.valid
  have he : c.toNat = c.val.toNat := rfl
  rcases hv with h | h <;> omega

/-- All UTF-8 bytes of a code point are byte-sized. -/
theorem utf8_bytes_lt (n : Nat) (h : n < 1114112) : ∀ b ∈ utf8EncodeNat n, b < 256 := by
  intro b hb
  unfold utf8EncodeNat at hb
  by_cases h1 : n < 128
  · rw [if_pos h1] at hb
    simp only [List.mem_singleton] at hb
    omega
  · rw [if_neg h1] at hb
    by_cases h2 : n < 2048
    · rw [if_pos h2] at hb
      simp only [List.mem_cons, List.mem_singleton, List.not_mem_nil, or_false] at hb
      rcases hb with hb | hb <;> omega
    · rw [if_neg h2] at hb
      by_cases h3 : n < 65536
      · rw [if_pos h3] at hb
        simp only [List.mem_cons, List.mem_singleton, List.not_mem_nil, or_false] at hb
        rcases hb with hb | hb | hb <;> omega
      · rw [if_neg h3] at hb
        simp only [List.mem_cons, List.mem_singleton, List.not_mem_nil, or_false] at hb
        rcases hb with hb | hb | hb | hb <;> omega

/-- Hex digits decode back to their value. -/
theorem hexVal_hexDigitChar : ∀ n < 16, hexVal (hexDigitChar n) = n := by decide

/-- A byte survives the split into two hex digits. -/
theorem hex_roundtrip (b : Nat) (h : b < 256) :
    hexVal (hexDigitChar (b / 16)) * 16 + hexVal (hexDigitChar (b % 16)) = b := by
  rw [hexVal_hexDigitChar (b / 16) (by omega), hexVal_hexDigitChar (b % 16) (by omega)]
  omega

/-- Decoding one percent-escape yields the byte back. -/
theorem percentDecode_encByte (b : Nat) (h : b < 256) (rest : List Char) :
    percentDecode (encByte b ++ rest) = b :: percentDecode rest := by
  simp only [encByte, List.cons_append, List.nil_append, percentDecode, eq_self_iff_true,
    if_true]
  rw [hex_roundtrip b h]
  rfl

/-- Decoding a run of percent-escapes yields the bytes back. -/
theorem percentDecode_encBytes (bs : List Nat) (h : ∀ b ∈ bs, b < 256) (rest : List Char) :
    percentDecode (encBytes bs ++ rest) = bs ++ percentDecode rest := by
  induction bs with
  | nil => rfl
  | cons b tl ih =>
    simp only [encBytes, List.append_assoc, List.cons_append]
    rw [percentDecode_encByte b (h b (List.mem_cons_self b tl))
        (encBytes tl ++ rest),
      ih (fun x hx => h x (List.mem_cons_of_mem b hx))]

/-- An unreserved character is not one of the decoder-significant
characters `%`, `+`, `&`, `=`, `#`. -/
theorem uriUnreserved_not_special (c : Char) (h : uriUnreserved c = true) :
    ¬ c = '%' ∧ ¬ c = '+' ∧ ¬ c = '&' ∧ ¬ c = '=' ∧ ¬ c = '#' := by
  refine ⟨?_, ?_, ?_, ?_, ?_⟩ <;> intro hc <;> subst hc <;> revert h <;> decide

/-- Decoding one encoded character recovers its UTF-8 bytes, whatever
follows. -/
theorem percentDecode_encChar (c : Char) (rest : List Char) :
    percentDecode (encChar c ++ rest) = utf8EncodeNat c.toNat ++ percentDecode rest := by
  by_cases h : uriUnreserved c = true
  · obtain ⟨hp, hl, _⟩ := uriUnreserved_not_special c h
    simp only [encChar, if_pos h, List.cons_append, List.nil_append]
    match rest with
    | [] =>
      simp only [percentDecode, if_neg hl, List.append_nil]
    | [d] =>
      simp only [percentDecode, if_neg hp, if_neg hl]
    | d :: e :: cs =>
      simp only [percentDecode, if_neg hp, if_neg hl]
  · simp only [encChar, if_neg h]
    exact percentDecode_encBytes (utf8EncodeNat c.toNat)
      (utf8_bytes_lt c.toNat (char_toNat_lt c)) rest

/-- Percent-decoding an encoded string yields exactly its UTF-8
bytes. -/
theorem percentDecode_encode (cs : List Char) :
    percentDecode (encodeURIComponentL cs) = utf8EncodeL cs := by
  induction cs with
  | nil => rfl
  | cons c tl ih =>
    simp only [encodeURIComponentL, utf8EncodeL]
    rw [percentDecode_encChar c (encodeURIComponentL tl), ih]


/-- Unfolding: the decoder at a lead byte. -/
theorem utf8DecodeAux_lead (b : Nat) (bs : List Nat) :
    utf8DecodeAux 0 0 (b :: bs) =
      if b < 128 then Char.ofNat b :: utf8DecodeAux 0 0 bs
      else if b < 224 then utf8DecodeAux (b - 192) 1 bs
      else if b < 240 then utf8DecodeAux (b - 224) 2 bs
      else utf8DecodeAux (b - 240) 3 bs := by
  simp [utf8DecodeAux]

/-- Unfolding: the decoder at the final continuation byte. -/
theorem utf8DecodeAux_cont1 (acc b : Nat) (bs : List Nat) :
    utf8DecodeAux acc 1 (b :: bs) =
      Char.ofNat (acc * 64 + (b - 128)) :: utf8DecodeAux 0 0 bs := by
  simp [utf8DecodeAux]

/-- Unfolding: the decoder two continuation bytes from the end. -/
theorem utf8DecodeAux_cont2 (acc b : Nat) (bs : List Nat) :
    utf8DecodeAux acc 2 (b :: bs) = utf8DecodeAux (acc * 64 + (b - 128)) 1 bs := by
  simp [utf8DecodeAux]

/-- Unfolding: the decoder three continuation bytes from the end. -/
theorem utf8DecodeAux_cont3 (acc b : Nat) (bs : List Nat) :
    utf8DecodeAux acc 3 (b :: bs) = utf8DecodeAux (acc * 64 + (b - 128)) 2 bs := by
  simp [utf8DecodeAux]

/-- UTF-8 decoding undoes the encoding of one character, whatever bytes
follow. -/
theorem utf8Decode_encodeNat (c : Char) (rest : List Nat) :
    utf8DecodeAux 0 0 (utf8EncodeNat c.toNat ++ rest) = c :: utf8DecodeAux 0 0 rest := by
  have hlt : c.toNat < 1114112 := char_toNat_lt c
  unfold utf8EncodeNat
  by_cases h1 : c.toNat < 128
  · rw [if_pos h1]
    simp only [List.cons_append, List.nil_append]
    rw [utf8DecodeAux_lead, if_pos h1, Char.ofNat_toNat]
  · rw [if_neg h1]
    by_cases h2 : c.toNat < 2048
    · rw [if_pos h2]
      simp only [List.cons_append, List.nil_append]
      rw [utf8DecodeAux_lead, if_neg (by omega : ¬ 192 + c.toNat / 64 < 128),
        if_pos (by omega : 192 + c.toNat / 64 < 224), utf8DecodeAux_cont1]
      have hv : (192 + c.toNat / 64 - 192) * 64 + (128 + c.toNat % 64 - 128) = c.toNat := by
        omega
      rw [hv, Char.ofNat_toNat]
    · rw [if_neg h2]
      by_cases h3 : c.toNat < 65536
      · rw [if_pos h3]
        simp only [List.cons_append, List.nil_append]
        rw [utf8DecodeAux_lead, if_neg (by omega : ¬ 224 + c.toNat / 4096 < 128),
          if_neg (by omega : ¬ 224 + c.toNat / 4096 < 224),
          if_pos (by omega : 224 + c.toNat / 4096 < 240),
          utf8DecodeAux_cont2, utf8DecodeAux_cont1]
        have hv : ((224 + c.toNat / 4096 - 224) * 64 + (128 + c.toNat / 64 % 64 - 128)) * 64 +
            (128 + c.toNat % 64 - 128) = c.toNat := by
          omega
        rw [hv, Char.ofNat_toNat]
      · rw [if_neg h3]
        simp only [List.cons_append, List.nil_append]
        rw [utf8DecodeAux_lead, if_neg (by omega : ¬ 240 + c.toNat / 262144 < 128),
          if_neg (by omega : ¬ 240 + c.toNat / 262144 < 224),
          if_neg (by omega : ¬ 240 + c.toNat / 262144 < 240),
          utf8DecodeAux_cont3, utf8DecodeAux_cont2, utf8DecodeAux_cont1]
        have hv : (((240 + c.toNat / 262144 - 240) * 64 + (128 + c.toNat / 4096 % 64 - 128)) * 64 +
            (128 + c.toNat / 64 % 64 - 128)) * 64 + (128 + c.toNat % 64 - 128) = c.toNat := by
          omega
        rw [hv, Char.ofNat_toNat]

/-- UTF-8 decoding undoes the encoding of a character list. -/
theorem utf8Decode_utf8EncodeL (cs : List Char) : utf8Decode (utf8EncodeL cs) = cs := by
  unfold utf8Decode
  induction cs with
  | nil => rfl
  | cons c tl ih =>
    simp only [utf8EncodeL]
    rw [utf8Decode_encodeNat c (utf8EncodeL tl), ih]

/-- Hex digit characters are never the pair separator. -/
theorem hexDigitChar_ne_amp : ∀ n < 16, ¬ hexDigitChar n = '&' := by decide

/-- Characters of a percent-escape are never the pair separator. -/
theorem encByte_no_amp (b : Nat) (h : b < 256) : ∀ x ∈ encByte b, ¬ x = '&' := by
  intro x hx
  simp only [encByte, List.mem_cons, List.not_mem_nil, or_false] at hx
  rcases hx with hx | hx | hx
  · subst hx
    decide
  · subst hx
    exact hexDigitChar_ne_amp (b / 16) (by omega)
  · subst hx
    exact hexDigitChar_ne_amp (b % 16) (by omega)

/-- Characters of a run of percent-escapes are never the separator. -/
theorem encBytes_no_amp (bs : List Nat) (h : ∀ b ∈ bs, b < 256) :
    ∀ x ∈ encBytes bs, ¬ x = '&' := by
  induction bs with
  | nil => intro x hx; simp [encBytes] at hx
  | cons b tl ih =>
    intro x hx
    simp only [encBytes, List.mem_append] at hx
    rcases hx with hx | hx
    · exact encByte_no_amp b (h b (List.mem_cons_self b tl)) x hx
    · exact ih (fun y hy => h y (List.mem_cons_of_mem b hy)) x hx

/-- `encodeURIComponent` output never contains the separator `&`. -/
theorem encodeURIComponentL_no_amp (cs : List Char) :
    ∀ x ∈ encodeURIComponentL cs, ¬ x = '&' := by
  induction cs with
  | nil => intro x hx; simp [encodeURIComponentL] at hx
  | cons c tl ih =>
    intro x hx
    simp only [encodeURIComponentL, List.mem_append] at hx
    rcases hx with hx | hx
    · by_cases h : uriUnreserved c = true
      · rw [encChar, if_pos h] at hx
        simp only [List.mem_singleton] at hx
        subst hx
        exact (uriUnreserved_not_special x h).2.2.1
      · rw [encChar, if_neg h] at hx
        exact encBytes_no_amp (utf8EncodeNat c.toNat)
          (utf8_bytes_lt c.toNat (char_toNat_lt c)) x hx
    · exact ih x hx

/-- A value without separators is taken whole. -/
theorem takeUntilAmp_of_no_amp (l : List Char) (h : ∀ x ∈ l, ¬ x = '&') :
    takeUntilAmp l = l := by
  induction l with
  | nil => rfl
  | cons c tl ih =>
    simp only [takeUntilAmp]
    rw [if_neg (h c (List.mem_cons_self c tl)), ih (fun y hy => h y (List.mem_cons_of_mem c hy))]

/-- C10: for every query text, the URL the client builds carries the
`encodeURIComponent`-encoded text, and the server's query parser
recovers exactly the typed text — URL-significant characters such as
`&`, `=`, `#`, `%`, or spaces included. -/
theorem url_query_roundtrip (q : String) :
    serverQueryValue (afterQuestionMark (buildSearchUrl q).data) = some q := by
  have hdata : (buildSearchUrl q).data = "/api/search?q=".data ++ (encodeURIComponentS q).data := by
    simp [buildSearchUrl, String.data_append]
  rw [hdata]
  have hq : afterQuestionMark ("/api/search?q=".data ++ (encodeURIComponentS q).data) =
      'q' :: '=' :: encodeURIComponentL q.data := by
    simp [afterQuestionMark, encodeURIComponentS]
  rw [hq]
  simp only [serverQueryValue]
  rw [takeUntilAmp_of_no_amp (encodeURIComponentL q.data) (encodeURIComponentL_no_amp q.data)]
  rw [show percentDecode (encodeURIComponentL q.data) = utf8EncodeL q.data from
    percentDecode_encode q.data]
  rw [show utf8Decode (utf8EncodeL q.data) = q.data from utf8Decode_utf8EncodeL q.data]
